import Mathlib

/-!
A shallow embedding of the jobly backend core: the partial-update SQL
builder, the filtered query composers, the Company and Job data-access
operations, and the authentication/authorization middleware chain.

Database state is a record of row lists; each fallible operation returns
an Except value mirroring the thrown HTTP-style errors of expressError.js.
Parameterized SQL statements are embedded by their semantics: a generated
WHERE conjunct becomes a boolean predicate on rows, bound parameter lists
are tracked explicitly where a claim is about them, and ORDER BY becomes
an insertion sort on the designated column.
-/

namespace Jobly

/-- Values that appear in JS data objects, table rows and bound parameter
lists.  vNull is the JS null / SQL NULL; equity (a SQL numeric) is
embedded as a rational. -/
inductive Value where
  | vNull
  | vStr (s : String)
  | vInt (n : Int)
  | vRat (q : Rat)
deriving Repr, DecidableEq

/-- The error taxonomy of expressError.js raised by the embedded
operations: BadRequestError, NotFoundError, UnauthorizedError. -/
inductive JError where
  | badRequest (msg : String)
  | notFound (msg : String)
  | unauthorized
deriving Repr, DecidableEq

instance {ε α : Type} [DecidableEq ε] [DecidableEq α] : DecidableEq (Except ε α) :=
  fun x y =>
    match x, y with
    | .ok a, .ok b => if h : a = b then .isTrue (by rw [h]) else .isFalse (by simp [h])
    | .ok _, .error _ => .isFalse (by simp)
    | .error _, .ok _ => .isFalse (by simp)
    | .error e, .error f => if h : e = f then .isTrue (by rw [h]) else .isFalse (by simp [h])

/-- Executable code-point comparison of two strings, the deterministic
total order standing in for the ORDER BY collation. -/
def strLeB : List Char → List Char → Bool
  | [], _ => true
  | _ :: _, [] => false
  | a :: as2, b :: bs => if a = b then strLeB as2 bs else decide (a < b)

/-- View of a nullable integer column as a JS field value. -/
def optIntV : Option Int → Value
  | some n => .vInt n
  | none => .vNull

/-- View of a nullable text column as a JS field value. -/
def optStrV : Option String → Value
  | some s => .vStr s
  | none => .vNull

/-- View of a nullable numeric column as a JS field value. -/
def optRatV : Option Rat → Value
  | some q => .vRat q
  | none => .vNull

/-- Result record of sqlForPartialUpdate: the SET clause text and the
ordered bound-parameter list. -/
structure SqlUpdate where
  setCols : String
  values : List Value
deriving Repr, DecidableEq

/-- Modelled from the spec: the repository file helpers/sql.js defining
sqlForPartialUpdate is not among the provided sources (only its unit
tests in the test file and its callers in the model layer are).  Per the
spec, section 4.1: the output is a single assignment-clause string
listing each field as "column"=$position joined by ", ", plus an ordered
list of the corresponding values, with positions assigned in the
iteration order of the input mapping starting at 1; fields absent from
the column-name mapping use their logical name as the physical name; an
empty field mapping fails with a BadRequest error identifying that no
data was provided. -/
def sqlForPartialUpdate (data : List (String × Value))
    (jsToSql : List (String × String)) : Except JError SqlUpdate :=
  if data.isEmpty then .error (.badRequest "No data")
  else .ok
    { setCols := String.intercalate ", " (data.enum.map (fun iv =>
        "\"" ++ ((jsToSql.lookup iv.2.1).getD iv.2.1) ++ "\"=$"
          ++ toString (iv.1 + 1)))
      values := data.map Prod.snd }

/-- Row of the companies table. -/
structure CompanyRow where
  handle : String
  name : String
  description : String
  num_employees : Option Int
  logo_url : Option String
deriving Repr, DecidableEq

/-- Row of the jobs table. -/
structure JobRow where
  id : Nat
  title : String
  salary : Option Int
  equity : Option Rat
  company_handle : String
deriving Repr, DecidableEq

/-- Database state: the two tables the Company and Job models touch, and
the sequence backing the generated job id. -/
structure DB where
  companies : List CompanyRow
  jobs : List JobRow
  nextJobId : Nat
deriving Repr, DecidableEq

/-- Canonical company projection, as selected by every Company query:
handle, name, description, num_employees AS numEmployees, logo_url AS
logoUrl.  It is also the shape of the Company.create input. -/
structure CompanyData where
  handle : String
  name : String
  description : String
  numEmployees : Option Int
  logoUrl : Option String
deriving Repr, DecidableEq

/-- The aliased projection of a company row. -/
def CompanyRow.proj (r : CompanyRow) : CompanyData :=
  ⟨r.handle, r.name, r.description, r.num_employees, r.logo_url⟩

/-- Field lookup on the JS object a company projection denotes: exactly
the five keys of the SELECT list, nothing else. -/
def CompanyData.field (c : CompanyData) (k : String) : Option Value :=
  if k = "handle" then some (.vStr c.handle)
  else if k = "name" then some (.vStr c.name)
  else if k = "description" then some (.vStr c.description)
  else if k = "numEmployees" then some (optIntV c.numEmployees)
  else if k = "logoUrl" then some (optStrV c.logoUrl)
  else none

/-- Input of Job.create: title, salary, equity, companyHandle. -/
structure JobCreateData where
  title : String
  salary : Option Int
  equity : Option Rat
  companyHandle : String
deriving Repr, DecidableEq

/-- Result of Job.create and Job.update: id, title, salary, equity,
company_handle AS companyHandle. -/
structure JobCreateResult where
  id : Nat
  title : String
  salary : Option Int
  equity : Option Rat
  companyHandle : String
deriving Repr, DecidableEq

/-- Field lookup on the JS object a job create/update result denotes. -/
def JobCreateResult.field (r : JobCreateResult) (k : String) : Option Value :=
  if k = "id" then some (.vInt r.id)
  else if k = "title" then some (.vStr r.title)
  else if k = "salary" then some (optIntV r.salary)
  else if k = "equity" then some (optRatV r.equity)
  else if k = "companyHandle" then some (.vStr r.companyHandle)
  else none

/-- Result of Job.get: the scalar job columns with companyHandle deleted
and a nested company object (absent when the owning company row is not
found by the secondary query). -/
structure JobGetResult where
  id : Nat
  title : String
  salary : Option Int
  equity : Option Rat
  company : Option CompanyData
deriving Repr, DecidableEq

/-- Scalar-field lookup on the JS object a Job.get result denotes.  The
nested company object is held in the structure field JobGetResult.company
and is outside this scalar view; in particular the key companyHandle is
absent, since Job.get deletes it before attaching the company. -/
def JobGetResult.field (r : JobGetResult) (k : String) : Option Value :=
  if k = "id" then some (.vInt r.id)
  else if k = "title" then some (.vStr r.title)
  else if k = "salary" then some (optIntV r.salary)
  else if k = "equity" then some (optRatV r.equity)
  else none

/-- Listing row returned by Job.findAll: job columns plus the LEFT JOINed
company display name (absent when the join finds no company). -/
structure JobListing where
  id : Nat
  title : String
  salary : Option Int
  equity : Option Rat
  companyHandle : String
  companyName : Option String
deriving Repr, DecidableEq

/-- Column assignment of a SET clause applied to a company row, keyed by
the physical column name.  Type-mismatched assignments, which postgres
would reject with a datatype error, are embedded as no-ops; no claim
exercises them. -/
def CompanyRow.setCol (r : CompanyRow) (col : String) (v : Value) : CompanyRow :=
  if col = "handle" then
    match v with | .vStr s => { r with handle := s } | _ => r
  else if col = "name" then
    match v with | .vStr s => { r with name := s } | _ => r
  else if col = "description" then
    match v with | .vStr s => { r with description := s } | _ => r
  else if col = "num_employees" then
    match v with
    | .vInt n => { r with num_employees := some n }
    | .vNull => { r with num_employees := none }
    | _ => r
  else if col = "logo_url" then
    match v with
    | .vStr s => { r with logo_url := some s }
    | .vNull => { r with logo_url := none }
    | _ => r
  else r

/-- Column assignment of a SET clause applied to a job row.  The route
layer's update schema keeps update data to title, salary and equity, so
other columns are never targeted by the claims. -/
def JobRow.setCol (r : JobRow) (col : String) (v : Value) : JobRow :=
  if col = "title" then
    match v with | .vStr s => { r with title := s } | _ => r
  else if col = "salary" then
    match v with
    | .vInt n => { r with salary := some n }
    | .vNull => { r with salary := none }
    | _ => r
  else if col = "equity" then
    match v with
    | .vRat q => { r with equity := some q }
    | .vNull => { r with equity := none }
    | _ => r
  else r

/-- Semantics of executing the generated SET clause on one row: each
field of the update data assigns its value to its mapped physical column,
in input order. -/
def applySet (setCol : α → String → Value → α)
    (jsToSql : List (String × String)) (r : α)
    (data : List (String × Value)) : α :=
  data.foldl (fun acc fv => setCol acc ((jsToSql.lookup fv.1).getD fv.1) fv.2) r

/-- Column-name mapping Company.update passes to sqlForPartialUpdate. -/
def companyJsToSql : List (String × String) :=
  [("numEmployees", "num_employees"), ("logoUrl", "logo_url")]

/-- Company.create: duplicate-handle pre-check, INSERT, aliased
RETURNING projection. -/
def Company.create (data : CompanyData) (db : DB) :
    Except JError (CompanyData × DB) :=
  if db.companies.any (fun c => c.handle == data.handle) then
    .error (.badRequest ("Duplicate company: " ++ data.handle))
  else
    let row : CompanyRow :=
      ⟨data.handle, data.name, data.description, data.numEmployees, data.logoUrl⟩
    .ok (row.proj, { db with companies := db.companies ++ [row] })

/-- Company.get: SELECT by handle; NotFound when no row comes back.  The
result is the aliased projection of the row alone: the source issues no
secondary jobs query. -/
def Company.get (handle : String) (db : DB) : Except JError CompanyData :=
  match db.companies.find? (fun c => c.handle == handle) with
  | none => .error (.notFound ("No company: " ++ handle))
  | some c => .ok c.proj

/-- Company.update: build the SET clause with sqlForPartialUpdate (the
empty-data BadRequest propagates), execute the UPDATE with the handle
bound as the final parameter, NotFound when zero rows are returned. -/
def Company.update (handle : String) (data : List (String × Value)) (db : DB) :
    Except JError (CompanyData × DB) := do
  let _ ← sqlForPartialUpdate data companyJsToSql
  match db.companies.find? (fun c => c.handle == handle) with
  | none => .error (.notFound ("No company: " ++ handle))
  | some c =>
    .ok ((applySet CompanyRow.setCol companyJsToSql c data).proj,
      { db with companies := db.companies.map (fun x =>
          if x.handle == handle then applySet CompanyRow.setCol companyJsToSql x data
          else x) })

/-- Company.remove: DELETE by handle RETURNING handle; NotFound when zero
rows are returned. -/
def Company.remove (handle : String) (db : DB) : Except JError DB :=
  match db.companies.find? (fun c => c.handle == handle) with
  | none => .error (.notFound ("No company: " ++ handle))
  | some _ =>
    .ok { db with companies := db.companies.filter (fun c => !(c.handle == handle)) }

/-- Search filters of Company.findAll. -/
structure CompanyFilters where
  name : Option String := none
  minEmployees : Option Int := none
  maxEmployees : Option Int := none
deriving Repr, DecidableEq

/-- Semantics of the generated predicate num_employees >= min: a NULL
column never satisfies a SQL comparison. -/
def numGe (mn : Int) (c : CompanyRow) : Bool :=
  match c.num_employees with
  | some n => decide (mn ≤ n)
  | none => false

/-- Semantics of the generated predicate num_employees <= max. -/
def numLe (mx : Int) (c : CompanyRow) : Bool :=
  match c.num_employees with
  | some n => decide (n ≤ mx)
  | none => false

/-- Containment of one character list inside another, by trying the
candidate as a prefix of every suffix. -/
def hasInfix (pat : List Char) : List Char → Bool
  | [] => pat.isEmpty
  | c :: rest => pat.isPrefixOf (c :: rest) || hasInfix pat rest

/-- Semantics of the generated ILIKE predicate with the filter value
wrapped in percent wildcards: case-insensitive substring containment
(the filter value itself is assumed wildcard-free). -/
def iLikeContains (pat : String) (s : String) : Bool :=
  hasInfix pat.toLower.data s.toLower.data

/-- Name filter predicate of Company.findAll. -/
def nameILike (pat : String) (c : CompanyRow) : Bool :=
  iLikeContains pat c.name

/-- Filter composition stage of Company.findAll, run before any query is
issued: the three conditional pushes of the source, in source order, with
the inverted-bounds check nested inside the minEmployees branch exactly
as in the source.  A JS-falsy name (absent or empty string) contributes
nothing. -/
def companyConds (f : CompanyFilters) : Except JError (List (CompanyRow → Bool)) := do
  let first ←
    match f.minEmployees with
    | some mn =>
      match f.maxEmployees with
      | some mx =>
        if mx < mn
        then Except.error (JError.badRequest "minEmployees cannot be greater than maxEmployees")
        else Except.ok [numGe mn]
      | none => Except.ok [numGe mn]
    | none => Except.ok []
  let second := match f.maxEmployees with | some mx => [numLe mx] | none => []
  let third := match f.name with
    | some n => if n.isEmpty then [] else [nameILike n]
    | none => []
  Except.ok (first ++ second ++ third)

/-- Insertion step of the ORDER BY embedding. -/
def insertLe (le : α → α → Bool) (a : α) : List α → List α
  | [] => [a]
  | b :: bs => if le a b then a :: b :: bs else b :: insertLe le a bs

/-- ORDER BY embedding: an insertion sort by the designated column. -/
def orderBy (le : α → α → Bool) : List α → List α
  | [] => []
  | a :: rest => insertLe le a (orderBy le rest)

/-- Company.findAll: compose the filter conditions (which may fail fast
on inverted bounds), then run the SELECT: rows satisfying the conjunction
of the conditions, projected and ordered by name. -/
def Company.findAll (f : CompanyFilters) (db : DB) :
    Except JError (List CompanyData) := do
  let conds ← companyConds f
  Except.ok (orderBy (fun a b => strLeB a.name.data b.name.data)
    ((db.companies.filter (fun c => conds.all (fun p => p c))).map CompanyRow.proj))

/-- Search filters of Job.findAll.  The route layer always coerces
hasEquity to a boolean, and the model compares it to true with strict
equality, so it is embedded as an optional boolean. -/
structure JobFilters where
  minSalary : Option Int := none
  hasEquity : Option Bool := none
  title : Option String := none
deriving Repr, DecidableEq

/-- Semantics of the generated predicate salary >= min. -/
def salaryGe (mn : Int) (j : JobRow) : Bool :=
  match j.salary with
  | some s => decide (mn ≤ s)
  | none => false

/-- Semantics of the fixed predicate equity > 0: a NULL equity does not
satisfy it, nor does equity 0. -/
def equityPos (j : JobRow) : Bool :=
  match j.equity with
  | some e => decide (0 < e)
  | none => false

/-- Title filter predicate of Job.findAll. -/
def titleILike (pat : String) (j : JobRow) : Bool :=
  iLikeContains pat j.title

/-- Filter composition stage of Job.findAll: the three conditional pushes
of the source, in source order, returning both the WHERE conjuncts and
the bound parameter list.  The hasEquity branch pushes the fixed
predicate and, unlike the other two, no bound parameter. -/
def jobConds (f : JobFilters) : List (JobRow → Bool) × List Value :=
  let acc : List (JobRow → Bool) × List Value := ([], [])
  let acc := match f.minSalary with
    | some m => (acc.1 ++ [salaryGe m], acc.2 ++ [Value.vInt m])
    | none => acc
  let acc := if f.hasEquity = some true then (acc.1 ++ [equityPos], acc.2) else acc
  let acc := match f.title with
    | some t => (acc.1 ++ [titleILike t], acc.2 ++ [Value.vStr ("%" ++ t ++ "%")])
    | none => acc
  acc

/-- Job.findAll: the LEFT JOIN SELECT filtered by the conjunction of the
composed conditions, ordered by title. -/
def Job.findAll (f : JobFilters) (db : DB) : List JobListing :=
  orderBy (fun a b => strLeB a.title.data b.title.data)
    ((db.jobs.filter (fun j => (jobConds f).1.all (fun p => p j))).map (fun j =>
      { id := j.id, title := j.title, salary := j.salary, equity := j.equity,
        companyHandle := j.company_handle,
        companyName := (db.companies.find? (fun c => c.handle == j.company_handle)).map
          (fun c => c.name) }))

/-- Job.create: INSERT with the generated id, aliased RETURNING
projection.  Referential integrity of companyHandle is delegated to the
store and outside the claims. -/
def Job.create (data : JobCreateData) (db : DB) : JobCreateResult × DB :=
  let row : JobRow :=
    ⟨db.nextJobId, data.title, data.salary, data.equity, data.companyHandle⟩
  (⟨row.id, row.title, row.salary, row.equity, row.company_handle⟩,
    { db with jobs := db.jobs ++ [row], nextJobId := db.nextJobId + 1 })

/-- Job.get: SELECT by id (NotFound when no row), then the secondary
company SELECT; companyHandle is deleted from the job object and the
company object attached in its place. -/
def Job.get (id : Nat) (db : DB) : Except JError JobGetResult :=
  match db.jobs.find? (fun j => j.id == id) with
  | none => .error (.notFound ("No job: " ++ toString id))
  | some j =>
    .ok ⟨j.id, j.title, j.salary, j.equity,
      (db.companies.find? (fun c => c.handle == j.company_handle)).map CompanyRow.proj⟩

/-- Job.update: build the SET clause with sqlForPartialUpdate and an
empty column-name mapping, execute the UPDATE with the id bound as the
final parameter, NotFound when zero rows are returned. -/
def Job.update (id : Nat) (data : List (String × Value)) (db : DB) :
    Except JError (JobCreateResult × DB) := do
  let _ ← sqlForPartialUpdate data []
  match db.jobs.find? (fun j => j.id == id) with
  | none => .error (.notFound ("No job: " ++ toString id))
  | some j =>
    let j2 := applySet JobRow.setCol [] j data
    .ok (⟨j2.id, j2.title, j2.salary, j2.equity, j2.company_handle⟩,
      { db with jobs := db.jobs.map (fun x =>
          if x.id == id then applySet JobRow.setCol [] x data else x) })

/-- Job.remove: DELETE by id RETURNING id; NotFound when zero rows are
returned. -/
def Job.remove (id : Nat) (db : DB) : Except JError DB :=
  match db.jobs.find? (fun j => j.id == id) with
  | none => .error (.notFound ("No job: " ++ toString id))
  | some _ =>
    .ok { db with jobs := db.jobs.filter (fun j => !(j.id == id)) }

/-- Request-scoped identity decoded from the bearer credential: the token
payload with username and isAdmin. -/
structure UserIdentity where
  username : String
  isAdmin : Bool
deriving Repr, DecidableEq

/-- Character list of the upper-case variant matched by the anchored
regex of authenticateJWT. -/
def bearerU : List Char := ['B', 'e', 'a', 'r', 'e', 'r', ' ']

/-- Character list of the lower-case variant matched by the anchored
regex of authenticateJWT. -/
def bearerL : List Char := ['b', 'e', 'a', 'r', 'e', 'r', ' ']

/-- Semantics of authHeader.replace with the start-anchored regex
matching one Bearer-or-bearer-plus-space occurrence: when the header
starts with either variant, its first seven characters are removed;
otherwise the header is unchanged. -/
def stripBearer (s : List Char) : List Char :=
  if bearerU.isPrefixOf s then s.drop 7
  else if bearerL.isPrefixOf s then s.drop 7
  else s

/-- Semantics of the trim call: surrounding whitespace removed. -/
def trimChars (s : List Char) : List Char :=
  ((s.dropWhile Char.isWhitespace).reverse.dropWhile Char.isWhitespace).reverse

/-- The token handed to verification: the authorization header with at
most one leading Bearer-variant stripped and surrounding whitespace
trimmed. -/
def extractToken (h : String) : String :=
  ⟨trimChars (stripBearer h.data)⟩

/-- Whether a header starts with either Bearer variant. -/
def startsWithBearer (s : String) : Bool :=
  bearerU.isPrefixOf s.data || bearerL.isPrefixOf s.data

/-- authenticateJWT: the try block verifies the extracted token of the
header, when one is present, and stores the payload in the request scope;
the catch-all turns every verification failure into proceeding with no
identity.  The outer Except is the request outcome: this stage never
produces an error. -/
def authenticateJWT (verify : String → Except String UserIdentity)
    (authHeader : Option String) : Except JError (Option UserIdentity) :=
  .ok (match authHeader with
    | some h =>
      match verify (extractToken h) with
      | .ok payload => some payload
      | .error _ => none
    | none => none)

/-- ensureLoggedIn: Unauthorized when no identity is present. -/
def ensureLoggedIn (user : Option UserIdentity) : Except JError Unit :=
  match user with
  | some _ => .ok ()
  | none => .error .unauthorized

/-- ensureAdmin: Unauthorized unless an identity is present and carries
the admin flag. -/
def ensureAdmin (user : Option UserIdentity) : Except JError Unit :=
  match user with
  | some u => if u.isAdmin then .ok () else .error .unauthorized
  | none => .error .unauthorized

/-- ensureCorrectUserOrAdmin: Unauthorized unless an identity is present
and either carries the admin flag or its username equals the target
username of the request path.  The gate is pure: it either passes the
request through unchanged or raises, so no effect can be partially
applied. -/
def ensureCorrectUserOrAdmin (user : Option UserIdentity)
    (paramUsername : String) : Except JError Unit :=
  match user with
  | some u =>
    if u.isAdmin || u.username == paramUsername then .ok ()
    else .error .unauthorized
  | none => .error .unauthorized

/-! Helper lemmas. -/

lemma isPrefixOf_append_self (l₁ l₂ : List Char) : l₁.isPrefixOf (l₁ ++ l₂) = true := by
  induction l₁ with
  | nil => simp [List.isPrefixOf]
  | cons c cs ih => simp [List.isPrefixOf, ih]

lemma bearerU_not_pfx_of_bearerL (l : List Char) :
    bearerU.isPrefixOf (bearerL ++ l) = false := by
  have h : ('B' == 'b') = false := by decide
  simp [bearerU, bearerL, List.isPrefixOf, h]

lemma enumFrom_map_add_one (s : Nat) (l : List α) :
    (List.enumFrom s l).map (fun iv => iv.1 + 1) = List.range' (s + 1) l.length := by
  induction l generalizing s with
  | nil => rfl
  | cons a t ih => simp [List.enumFrom, List.range', ih]

/-! Theorems for the claims. -/

/-- C3: for every non-empty field-to-value mapping and every column-name
mapping, sqlForPartialUpdate succeeds with a values list equal in length
and order to the input fields, and a setCols string that joins with ", "
exactly one assignment per input field in input order, each of the form
"column"=$position with the column resolved through the column-name
mapping (falling back to the logical field name), positions being exactly
1, 2, ..., n in input order. -/
theorem sqlForPartialUpdate_nonempty_spec (p : String × Value)
    (ps : List (String × Value)) (jsToSql : List (String × String)) :
    ∃ r, sqlForPartialUpdate (p :: ps) jsToSql = .ok r ∧
      r.values = (p :: ps).map Prod.snd ∧
      r.setCols = String.intercalate ", " (((p :: ps).enum).map (fun iv =>
        "\"" ++ ((jsToSql.lookup iv.2.1).getD iv.2.1) ++ "\"=$"
          ++ toString (iv.1 + 1))) ∧
      ((p :: ps).enum).map (fun iv => iv.1 + 1) = List.range' 1 (p :: ps).length := by
  refine ⟨_, rfl, rfl, rfl, ?_⟩
  exact enumFrom_map_add_one 0 (p :: ps)

/-- Unit-test vector of the repository: one field, present in the
column-name mapping under its own name. -/
theorem sqlForPartialUpdate_vector_one :
    sqlForPartialUpdate [("f1", .vStr "v1")] [("f1", "f1"), ("fF2", "f2")] =
      .ok ⟨"\"f1\"=$1", [.vStr "v1"]⟩ := by decide

/-- Unit-test vector of the repository: two fields, the first absent from
the column-name mapping, the second mapped to a different physical
name. -/
theorem sqlForPartialUpdate_vector_two :
    sqlForPartialUpdate [("f1", .vStr "v1"), ("jsF2", .vStr "v2")] [("jsF2", "f2")] =
      .ok ⟨"\"f1\"=$1, \"f2\"=$2", [.vStr "v1", .vStr "v2"]⟩ := by decide

/-- C4: with an empty field mapping, sqlForPartialUpdate fails with a
BadRequest identifying that no data was provided, and so do
Company.update and Job.update when called with an empty partial-data
object, on every database state and key, rather than succeeding as a
no-op. -/
theorem update_empty_badRequest :
    (∀ jsToSql, sqlForPartialUpdate [] jsToSql = .error (.badRequest "No data")) ∧
    (∀ handle db, Company.update handle [] db = .error (.badRequest "No data")) ∧
    (∀ id db, Job.update id [] db = .error (.badRequest "No data")) :=
  ⟨fun _ => rfl, fun _ _ => rfl, fun _ _ => rfl⟩

/-- C8: the self-or-admin gate passes exactly when an identity is present
and either carries the admin flag or matches the target username of the
path; in every other case it fails with Unauthorized, these two outcomes
being the only possible ones (the gate is pure, so no effect is partially
applied). -/
theorem ensureCorrectUserOrAdmin_spec (user : Option UserIdentity) (target : String) :
    (ensureCorrectUserOrAdmin user target = .ok () ↔
      ∃ u, user = some u ∧ (u.isAdmin = true ∨ u.username = target)) ∧
    (ensureCorrectUserOrAdmin user target = .ok () ∨
      ensureCorrectUserOrAdmin user target = .error .unauthorized) := by
  constructor
  · cases user with
    | none => simp [ensureCorrectUserOrAdmin]
    | some u =>
      by_cases h : u.isAdmin = true ∨ u.username = target
      · have hb : (u.isAdmin || u.username == target) = true := by
          rcases h with h | h <;> simp [h]
        simp [ensureCorrectUserOrAdmin, hb, h]
      · have h1 : u.isAdmin = false := by
          cases hA : u.isAdmin
          · rfl
          · exact absurd (Or.inl hA) h
        have h2 : (u.username == target) = false := by
          cases hB : u.username == target
          · rfl
          · exact absurd (Or.inr (by simpa using hB)) h
        have hb : (u.isAdmin || u.username == target) = false := by simp [h1, h2]
        simp [ensureCorrectUserOrAdmin, hb, h]
  · cases user with
    | none => right; rfl
    | some u =>
      by_cases hb : (u.isAdmin || u.username == target) = true
      · left; simp [ensureCorrectUserOrAdmin, hb]
      · right; simp [ensureCorrectUserOrAdmin, hb]

/-- C9: identity extraction never fails the request: for every
verification function and every header value it returns an outcome, and
the outcome carries an identity exactly when a header was present and its
extracted token verified; on an absent header or a failing verification
it proceeds with no identity. -/
theorem authenticateJWT_soft (verify : String → Except String UserIdentity)
    (hd : Option String) :
    (∃ u, authenticateJWT verify hd = .ok u) ∧
    (∀ p, authenticateJWT verify hd = .ok (some p) ↔
      ∃ s, hd = some s ∧ verify (extractToken s) = .ok p) := by
  constructor
  · exact ⟨_, rfl⟩
  · intro p
    cases hd with
    | none => simp [authenticateJWT]
    | some s =>
      cases hv : verify (extractToken s) with
      | ok q => simp [authenticateJWT, hv]
      | error e => simp [authenticateJWT, hv]

/-- C10: the token extraction strips at most one leading "Bearer " or
"bearer " occurrence (anchored at the start: a header that does not begin
with either variant is left unstripped) and trims surrounding whitespace,
so a raw token without the prefix extracts exactly as the same token with
the prefix; with two stacked prefixes only the first is removed. -/
theorem extractToken_bearer_spec (t s : String)
    (ht : startsWithBearer t = false) (hs : startsWithBearer s = false) :
    extractToken ("Bearer " ++ t) = extractToken t ∧
    extractToken ("bearer " ++ t) = extractToken t ∧
    stripBearer s.data = s.data ∧
    extractToken "Bearer Bearer tok" = "Bearer tok" := by
  simp only [startsWithBearer, Bool.or_eq_false_iff] at ht hs
  have hstrip_t : stripBearer t.data = t.data := by
    simp [stripBearer, ht.1, ht.2]
  have hstrip_s : stripBearer s.data = s.data := by
    simp [stripBearer, hs.1, hs.2]
  have hU : ("Bearer " ++ t).data = bearerU ++ t.data := by
    rw [String.data_append]; rfl
  have hL : ("bearer " ++ t).data = bearerL ++ t.data := by
    rw [String.data_append]; rfl
  have hlenU : bearerU.length = 7 := rfl
  have hdropU : stripBearer (bearerU ++ t.data) = t.data := by
    simp only [stripBearer, isPrefixOf_append_self, if_true]
    rw [← hlenU, List.drop_left]
  have hdropL : stripBearer (bearerL ++ t.data) = t.data := by
    simp only [stripBearer, bearerU_not_pfx_of_bearerL, isPrefixOf_append_self,
      Bool.false_eq_true, if_false, if_true]
    exact List.drop_left bearerL t.data
  refine ⟨?_, ?_, hstrip_s, by decide⟩
  · show (⟨trimChars (stripBearer ("Bearer " ++ t).data)⟩ : String) = _
    rw [hU, hdropU]
    show _ = (⟨trimChars (stripBearer t.data)⟩ : String)
    rw [hstrip_t]
  · show (⟨trimChars (stripBearer ("bearer " ++ t).data)⟩ : String) = _
    rw [hL, hdropL]
    show _ = (⟨trimChars (stripBearer t.data)⟩ : String)
    rw [hstrip_t]

lemma except_bind_error {ε α β : Type} (e : ε) (g : α → Except ε β) :
    (Except.error e >>= g) = Except.error e := rfl

lemma except_bind_ok {ε α β : Type} (a : α) (g : α → Except ε β) :
    (Except.ok a >>= g) = g a := rfl

lemma insertLe_mem (le : α → α → Bool) (x a : α) (l : List α) :
    a ∈ insertLe le x l ↔ a = x ∨ a ∈ l := by
  induction l with
  | nil => simp [insertLe]
  | cons b bs ih =>
    simp only [insertLe]
    by_cases hle : le x b = true
    · rw [if_pos hle]
      simp only [List.mem_cons]
    · rw [if_neg hle]
      simp only [List.mem_cons, ih]
      tauto

lemma orderBy_mem (le : α → α → Bool) (a : α) (l : List α) :
    a ∈ orderBy le l ↔ a ∈ l := by
  induction l with
  | nil => simp [orderBy]
  | cons b bs ih => simp [orderBy, insertLe_mem, ih]

lemma equityPos_mem_jobConds (f : JobFilters) (hE : f.hasEquity = some true) :
    equityPos ∈ (jobConds f).1 := by
  rcases f with ⟨ms, he, ti⟩
  obtain rfl : he = some true := hE
  cases ms <;> cases ti <;> simp [jobConds]

lemma find_based_error_iff {α β : Type} (l : List α) (q : α → Bool) (P : α → Prop)
    (hP : ∀ a, q a = false ↔ P a) (msg : String) (v : Except JError β)
    (hnone : l.find? q = none → v = .error (.notFound msg))
    (hsome : ∀ a, l.find? q = some a → ∀ e2, v ≠ .error e2) (e : JError) :
    (v = .error e) ↔ ((∀ a ∈ l, P a) ∧ e = .notFound msg) := by
  cases hf : l.find? q with
  | none =>
    have hAll : ∀ a ∈ l, P a := by
      intro a ha
      have hq := List.find?_eq_none.mp hf a ha
      exact (hP a).mp (by simpa using hq)
    rw [hnone hf]
    constructor
    · intro hx
      injection hx with h2
      exact ⟨hAll, h2.symm⟩
    · rintro ⟨-, rfl⟩
      rfl
  | some a =>
    constructor
    · intro hx
      exact absurd hx (hsome a hf e)
    · rintro ⟨hAll, -⟩
      have hqa := List.find?_some hf
      rw [(hP a).mpr (hAll a (List.mem_of_find?_eq_some hf))] at hqa
      cases hqa

/-- C5: on every database state, Company.findAll fails, and fails with
the BadRequest about inverted bounds, exactly when both employee-count
bounds are present and the lower strictly exceeds the upper; and that
error is already decided by the pure filter-composition stage, before any
query reaches storage. -/
theorem companyFindAll_invertedBounds (f : CompanyFilters) (db : DB) (e : JError) :
    (companyConds f = .error e ↔
      ((∃ mn mx, f.minEmployees = some mn ∧ f.maxEmployees = some mx ∧ mx < mn) ∧
        e = .badRequest "minEmployees cannot be greater than maxEmployees")) ∧
    (Company.findAll f db = .error e ↔
      ((∃ mn mx, f.minEmployees = some mn ∧ f.maxEmployees = some mx ∧ mx < mn) ∧
        e = .badRequest "minEmployees cannot be greater than maxEmployees")) := by
  have hmain : companyConds f = .error e ↔
      ((∃ mn mx, f.minEmployees = some mn ∧ f.maxEmployees = some mx ∧ mx < mn) ∧
        e = .badRequest "minEmployees cannot be greater than maxEmployees") := by
    rcases f with ⟨nm, mn, mx⟩
    cases mn with
    | none => simp [companyConds, except_bind_ok]
    | some a =>
      cases mx with
      | none => simp [companyConds, except_bind_ok]
      | some b =>
        by_cases hab : b < a
        · simp only [companyConds, if_pos hab, except_bind_error]
          constructor
          · intro hx
            injection hx with h2
            exact ⟨⟨a, b, rfl, rfl, hab⟩, h2.symm⟩
          · rintro ⟨-, rfl⟩
            rfl
        · simp [companyConds, if_neg hab, except_bind_ok, hab]
  have hiff : (Company.findAll f db = .error e) ↔ (companyConds f = .error e) := by
    cases hc : companyConds f with
    | error e2 => simp [Company.findAll, hc, except_bind_error]
    | ok cs => simp [Company.findAll, hc, except_bind_ok]
  exact ⟨hmain, hiff.trans hmain⟩

/-- C6: the hasEquity filter set to false yields exactly the result set
obtained without the filter on every database state; the true setting
contributes no bound parameter (the parameter list is that of the
filterless record); and with the filter set true every returned listing
has an equity strictly greater than zero, so rows with equity zero or
NULL are excluded. -/
theorem jobFindAll_hasEquity :
    (∀ (f : JobFilters) (db : DB), Job.findAll { f with hasEquity := some false } db =
      Job.findAll { f with hasEquity := none } db) ∧
    (∀ (f : JobFilters), (jobConds { f with hasEquity := some true }).2 =
      (jobConds { f with hasEquity := none }).2) ∧
    (∀ (f : JobFilters) (db : DB) (r : JobListing), f.hasEquity = some true →
      r ∈ Job.findAll f db → ∃ e, r.equity = some e ∧ 0 < e) := by
  refine ⟨?_, ?_, ?_⟩
  · intro f db
    rcases f with ⟨ms, he, ti⟩
    simp [Job.findAll, jobConds]
  · intro f
    rcases f with ⟨ms, he, ti⟩
    cases ms <;> cases ti <;> simp [jobConds]
  · intro f db r hE hmem
    rw [show Job.findAll f db = orderBy (fun a b => strLeB a.title.data b.title.data)
      ((db.jobs.filter (fun j => (jobConds f).1.all (fun p => p j))).map (fun j =>
        { id := j.id, title := j.title, salary := j.salary, equity := j.equity,
          companyHandle := j.company_handle,
          companyName := (db.companies.find? (fun c => c.handle == j.company_handle)).map
            (fun c => c.name) })) from rfl, orderBy_mem] at hmem
    simp only [List.mem_map, List.mem_filter] at hmem
    obtain ⟨j, ⟨hjmem, hjpass⟩, rfl⟩ := hmem
    have hpos : equityPos j = true :=
      List.all_eq_true.mp hjpass equityPos (equityPos_mem_jobConds f hE)
    cases he2 : j.equity with
    | none => rw [equityPos, he2] at hpos; cases hpos
    | some q =>
      refine ⟨q, by simp [he2], ?_⟩
      rw [equityPos, he2] at hpos
      exact of_decide_eq_true hpos

/-- Fixture for the C6 witness: one company and one job carrying a
positive equity. -/
def wjDB : DB :=
  ⟨[⟨"c1", "C1", "Desc1", some 1, some "http://c1.img"⟩],
   [⟨1, "J1", some 1, some (mkRat 1 10), "c1"⟩], 2⟩

/-- Witness for C6: the hasEquity-true search over the fixture returns
the listing of job J1, whose equity is strictly positive. -/
theorem jobFindAll_hasEquity_witness :
    ∃ e, (⟨1, "J1", some 1, some (mkRat 1 10), "c1", some "C1"⟩ : JobListing).equity =
      some e ∧ 0 < e :=
  jobFindAll_hasEquity.2.2 ⟨none, some true, none⟩ wjDB
    ⟨1, "J1", some 1, some (mkRat 1 10), "c1", some "C1"⟩ rfl (by decide)

/-- C7: on every database state, every key and every non-empty update
data, each of the six keyed operations of the two entities (get, remove,
update) fails exactly when no row carries the key, the failure always
being the typed NotFound naming the key; conversely with a matching row
present none of them errors. -/
theorem notFound_iff_missing_key (db : DB) (h : String) (i : Nat)
    (p : String × Value) (ps : List (String × Value)) (e : JError) :
    (Company.get h db = .error e ↔
      ((∀ c ∈ db.companies, c.handle ≠ h) ∧ e = .notFound ("No company: " ++ h))) ∧
    (Company.remove h db = .error e ↔
      ((∀ c ∈ db.companies, c.handle ≠ h) ∧ e = .notFound ("No company: " ++ h))) ∧
    (Company.update h (p :: ps) db = .error e ↔
      ((∀ c ∈ db.companies, c.handle ≠ h) ∧ e = .notFound ("No company: " ++ h))) ∧
    (Job.get i db = .error e ↔
      ((∀ j ∈ db.jobs, j.id ≠ i) ∧ e = .notFound ("No job: " ++ toString i))) ∧
    (Job.remove i db = .error e ↔
      ((∀ j ∈ db.jobs, j.id ≠ i) ∧ e = .notFound ("No job: " ++ toString i))) ∧
    (Job.update i (p :: ps) db = .error e ↔
      ((∀ j ∈ db.jobs, j.id ≠ i) ∧ e = .notFound ("No job: " ++ toString i))) := by
  have hPc : ∀ c : CompanyRow, ((c.handle == h) = false ↔ c.handle ≠ h) := by
    intro c; simp
  have hPj : ∀ j : JobRow, ((j.id == i) = false ↔ j.id ≠ i) := by
    intro j; simp
  refine ⟨?_, ?_, ?_, ?_, ?_, ?_⟩
  · exact find_based_error_iff db.companies (fun c => c.handle == h) _ hPc
      ("No company: " ++ h) (Company.get h db)
      (fun hf => by simp [Company.get, hf])
      (fun a hf e2 => by simp [Company.get, hf]) e
  · exact find_based_error_iff db.companies (fun c => c.handle == h) _ hPc
      ("No company: " ++ h) (Company.remove h db)
      (fun hf => by simp [Company.remove, hf])
      (fun a hf e2 => by simp [Company.remove, hf]) e
  · exact find_based_error_iff db.companies (fun c => c.handle == h) _ hPc
      ("No company: " ++ h) (Company.update h (p :: ps) db)
      (fun hf => by simp [Company.update, sqlForPartialUpdate, except_bind_ok, hf])
      (fun a hf e2 => by simp [Company.update, sqlForPartialUpdate, except_bind_ok, hf]) e
  · exact find_based_error_iff db.jobs (fun j => j.id == i) _ hPj
      ("No job: " ++ toString i) (Job.get i db)
      (fun hf => by simp [Job.get, hf])
      (fun a hf e2 => by simp [Job.get, hf]) e
  · exact find_based_error_iff db.jobs (fun j => j.id == i) _ hPj
      ("No job: " ++ toString i) (Job.remove i db)
      (fun hf => by simp [Job.remove, hf])
      (fun a hf e2 => by simp [Job.remove, hf]) e
  · exact find_based_error_iff db.jobs (fun j => j.id == i) _ hPj
      ("No job: " ++ toString i) (Job.update i (p :: ps) db)
      (fun hf => by simp [Job.update, sqlForPartialUpdate, except_bind_ok, hf])
      (fun a hf e2 => by simp [Job.update, sqlForPartialUpdate, except_bind_ok, hf]) e

/-- Fixture for the round-trip claims: one company, no jobs, next job id
1. -/
def cexDB : DB := ⟨[⟨"c1", "C1", "Desc1", some 1, some "http://c1.img"⟩], [], 1⟩

lemma create_then_get (data : CompanyData) (db : DB) (res : CompanyData) (db2 : DB)
    (hc : Company.create data db = .ok (res, db2)) :
    Company.get data.handle db2 = .ok res := by
  have hany : db.companies.any (fun c => c.handle == data.handle) = false := by
    by_cases hdup : db.companies.any (fun c => c.handle == data.handle) = true
    · simp [Company.create, hdup] at hc
    · exact Bool.eq_false_iff.mpr hdup
  simp only [Company.create, hany, Bool.false_eq_true, if_false, Except.ok.injEq,
    Prod.mk.injEq] at hc
  obtain ⟨hres, hdb2⟩ := hc
  subst hres
  subst hdb2
  simp only [Company.get]
  rw [List.find?_append]
  have hnone : db.companies.find? (fun c => c.handle == data.handle) = none :=
    List.find?_eq_none.mpr (fun c hcm => by
      simpa using List.any_eq_false.mp hany c hcm)
  rw [hnone]
  simp [List.find?]

lemma jobGet_field_eq (idv : Nat) (ti : String) (sa : Option Int) (eqv : Option Rat)
    (ch : String) (comp : Option CompanyData) (k : String) (hk : k ≠ "companyHandle") :
    JobGetResult.field ⟨idv, ti, sa, eqv, comp⟩ k =
      JobCreateResult.field ⟨idv, ti, sa, eqv, ch⟩ k := by
  by_cases h1 : k = "id"
  · simp [JobGetResult.field, JobCreateResult.field, h1]
  · by_cases h2 : k = "title"
    · simp [JobGetResult.field, JobCreateResult.field, h1, h2]
    · by_cases h3 : k = "salary"
      · simp [JobGetResult.field, JobCreateResult.field, h1, h2, h3]
      · by_cases h4 : k = "equity"
        · simp [JobGetResult.field, JobCreateResult.field, h1, h2, h3, h4]
        · simp [JobGetResult.field, JobCreateResult.field, h1, h2, h3, h4, hk]

/-- C1 counterexample: on the one-company fixture, the Job.create result
carries the field companyHandle (a caller-supplied field, not
server-generated) with value c1, yet the Job.get result on the created
key has no such field: the round-trip does not preserve it. -/
theorem roundTrip_companyHandle_cex :
    ((Job.create ⟨"J1", some 1, some (mkRat 1 10), "c1"⟩ cexDB).1.field "companyHandle" =
      some (.vStr "c1")) ∧
    ∃ g, Job.get (Job.create ⟨"J1", some 1, some (mkRat 1 10), "c1"⟩ cexDB).1.id
        (Job.create ⟨"J1", some 1, some (mkRat 1 10), "c1"⟩ cexDB).2 = .ok g ∧
      g.field "companyHandle" = none := by
  refine ⟨by decide, ⟨⟨1, "J1", some 1, some (mkRat 1 10),
    some ⟨"c1", "C1", "Desc1", some 1, some "http://c1.img"⟩⟩, by decide, by decide⟩⟩

/-- C1 (amended): a successful Company.create followed by Company.get on
the created handle returns exactly the create result; a Job.create
followed by Job.get on the created id (fresh by the id sequence) returns
the created row with a nested company object, and every field of the
create result except companyHandle appears under the same name with the
same value in the get result: companyHandle alone is removed, its value
carried instead by the nested company lookup. -/
theorem roundTrip_amended (data : CompanyData) (db : DB) (res : CompanyData)
    (db2 : DB) (jdata : JobCreateData) (jdb : DB) (k : String) (g : JobGetResult)
    (hc : Company.create data db = .ok (res, db2))
    (hfresh : ∀ j ∈ jdb.jobs, j.id ≠ jdb.nextJobId)
    (hget : Job.get (Job.create jdata jdb).1.id (Job.create jdata jdb).2 = .ok g)
    (hk : k ≠ "companyHandle") :
    Company.get data.handle db2 = .ok res ∧
    Job.get (Job.create jdata jdb).1.id (Job.create jdata jdb).2 =
      .ok ⟨jdb.nextJobId, jdata.title, jdata.salary, jdata.equity,
        (jdb.companies.find? (fun c => c.handle == jdata.companyHandle)).map
          CompanyRow.proj⟩ ∧
    g.field k = (Job.create jdata jdb).1.field k := by
  have hjob : Job.get (Job.create jdata jdb).1.id (Job.create jdata jdb).2 =
      .ok ⟨jdb.nextJobId, jdata.title, jdata.salary, jdata.equity,
        (jdb.companies.find? (fun c => c.handle == jdata.companyHandle)).map
          CompanyRow.proj⟩ := by
    show Job.get jdb.nextJobId
        { jdb with
          jobs := jdb.jobs ++
            [⟨jdb.nextJobId, jdata.title, jdata.salary, jdata.equity, jdata.companyHandle⟩],
          nextJobId := jdb.nextJobId + 1 } = _
    simp only [Job.get]
    rw [List.find?_append]
    have hnone : jdb.jobs.find? (fun j => j.id == jdb.nextJobId) = none :=
      List.find?_eq_none.mpr (fun j hj => by simpa using hfresh j hj)
    rw [hnone]
    simp [List.find?]
  have hg : g = ⟨jdb.nextJobId, jdata.title, jdata.salary, jdata.equity,
      (jdb.companies.find? (fun c => c.handle == jdata.companyHandle)).map
        CompanyRow.proj⟩ := by
    rw [hget] at hjob
    injection hjob with hgg
  refine ⟨create_then_get data db res db2 hc, hjob, ?_⟩
  rw [hg]
  exact jobGet_field_eq jdb.nextJobId jdata.title jdata.salary jdata.equity
    jdata.companyHandle _ k hk

/-- Witness for C1 (amended) on the one-company fixture, with the company
round-trip of handle new and the job round-trip checked at the field
title. -/
theorem roundTrip_amended_witness :
    Company.get "new"
      ⟨[⟨"c1", "C1", "Desc1", some 1, some "http://c1.img"⟩,
        ⟨"new", "New", "New Description", some 1, some "http://new.img"⟩], [], 1⟩ =
      .ok ⟨"new", "New", "New Description", some 1, some "http://new.img"⟩ ∧
    Job.get (Job.create ⟨"J1", some 1, some (mkRat 1 10), "c1"⟩ cexDB).1.id
        (Job.create ⟨"J1", some 1, some (mkRat 1 10), "c1"⟩ cexDB).2 =
      .ok ⟨1, "J1", some 1, some (mkRat 1 10),
        some ⟨"c1", "C1", "Desc1", some 1, some "http://c1.img"⟩⟩ ∧
    JobGetResult.field ⟨1, "J1", some 1, some (mkRat 1 10),
        some ⟨"c1", "C1", "Desc1", some 1, some "http://c1.img"⟩⟩ "title" =
      JobCreateResult.field (Job.create ⟨"J1", some 1, some (mkRat 1 10), "c1"⟩ cexDB).1
        "title" := by
  have h := roundTrip_amended
    ⟨"new", "New", "New Description", some 1, some "http://new.img"⟩ cexDB
    ⟨"new", "New", "New Description", some 1, some "http://new.img"⟩
    ⟨[⟨"c1", "C1", "Desc1", some 1, some "http://c1.img"⟩,
      ⟨"new", "New", "New Description", some 1, some "http://new.img"⟩], [], 1⟩
    ⟨"J1", some 1, some (mkRat 1 10), "c1"⟩ cexDB "title"
    ⟨1, "J1", some 1, some (mkRat 1 10),
      some ⟨"c1", "C1", "Desc1", some 1, some "http://c1.img"⟩⟩
    (by decide) (by decide) (by decide) (by decide)
  exact h

/-- C2 counterexample: on a fixture where company c1 has an associated
job, Company.get on c1 succeeds but the returned object carries no jobs
field at all: the single-company lookup does not include the associated
jobs. -/
theorem companyGet_noJobs_cex :
    (wjDB.jobs.any (fun j => j.company_handle == "c1")) = true ∧
    ∃ c, Company.get "c1" wjDB = .ok c ∧ c.field "jobs" = none := by
  exact ⟨by decide, ⟨⟨"c1", "C1", "Desc1", some 1, some "http://c1.img"⟩,
    by decide, by decide⟩⟩

/-- C2 (amended): Company.get on an existing handle returns exactly the
company projection, with no jobs field; Job.get on an existing id returns
the job together with the owning company full detail projection (handle,
name, description, employee count, logo URL) as found by the secondary
lookup. -/
theorem get_nested_projections (db : DB) (h : String) (c : CompanyRow)
    (i : Nat) (j : JobRow) :
    (db.companies.find? (fun x => x.handle == h) = some c →
      Company.get h db = .ok c.proj ∧ CompanyData.field c.proj "jobs" = none) ∧
    (db.jobs.find? (fun x => x.id == i) = some j →
      Job.get i db = .ok ⟨j.id, j.title, j.salary, j.equity,
        (db.companies.find? (fun x => x.handle == j.company_handle)).map
          CompanyRow.proj⟩) := by
  constructor
  · intro hf
    exact ⟨by simp [Company.get, hf], rfl⟩
  · intro hf
    simp [Job.get, hf]

/-- Witness for C2 (amended) on the one-company one-job fixture. -/
theorem get_nested_projections_witness :
    (Company.get "c1" wjDB = .ok ⟨"c1", "C1", "Desc1", some 1, some "http://c1.img"⟩ ∧
      CompanyData.field ⟨"c1", "C1", "Desc1", some 1, some "http://c1.img"⟩ "jobs" = none) ∧
    Job.get 1 wjDB = .ok ⟨1, "J1", some 1, some (mkRat 1 10),
      some ⟨"c1", "C1", "Desc1", some 1, some "http://c1.img"⟩⟩ := by
  have h := get_nested_projections wjDB "c1"
    ⟨"c1", "C1", "Desc1", some 1, some "http://c1.img"⟩ 1
    ⟨1, "J1", some 1, some (mkRat 1 10), "c1"⟩
  exact ⟨h.1 (by decide), h.2 (by decide)⟩

/-- Witness for C10 at the concrete raw token tok123. -/
theorem extractToken_bearer_spec_witness :
    extractToken ("Bearer " ++ "tok123") = extractToken "tok123" ∧
    extractToken ("bearer " ++ "tok123") = extractToken "tok123" ∧
    stripBearer "tok123".data = "tok123".data ∧
    extractToken "Bearer Bearer tok" = "Bearer tok" :=
  extractToken_bearer_spec "tok123" "tok123" (by decide) (by decide)

end Jobly
